import Mathlib

/-!
Verification of the branching/scoring/ranking core of the "Try On Quiz"
application (`src/app.js`).  The JavaScript objects and `Map`s used by the
code are modelled as insertion-ordered association lists; JS property
assignment (update-in-place for an existing key, append for a fresh key)
becomes `jsSet`, and property/`Map.get` lookup becomes `jsGet`.  Numbers in
the dataset are integers, modelled by `Int` (question ids, score deltas) and
`Nat` (answer indexes, array positions).
-/

namespace TryOnQuiz

/-- Update semantics of a JS object property write / `Map.set`: if the key is
already present the value is replaced in place (insertion position kept),
otherwise the pair is appended at the end. -/
def jsSet {α β : Type} [DecidableEq α] : List (α × β) → α → β → List (α × β)
  | [], k, v => [(k, v)]
  | p :: rest, k, v => if p.1 = k then (k, v) :: rest else p :: jsSet rest k v

/-- Lookup semantics of a JS object property read / `Map.get`: first matching
key wins (keys are unique in structures built with `jsSet`, so this is the
only match). `none` models `undefined`. -/
def jsGet {α β : Type} [DecidableEq α] : List (α × β) → α → Option β
  | [], _ => none
  | p :: rest, k => if p.1 = k then some p.2 else jsGet rest k

/-- Catalog item (`DATA.shoes` entry): `id` plus presentation data. -/
structure Shoe where
  id : String
  name : String
deriving DecidableEq, Repr

/-- Value of an answer's `nextQuestion` field as it appears in the dataset
wire format: absent key (`undefined`), explicit `null`, empty string, or an
integer question id. -/
inductive NextField where
  | undef
  | nullv
  | emptyStr
  | qid (n : Int)
deriving DecidableEq, Repr

/-- An answer (`question.answers` entry): display copy, the sparse
`ratingIncrease` score-delta object (`none` models an absent field), and the
`nextQuestion` link. -/
structure Answer where
  copy : String
  ratingIncrease : Option (List (String × Int))
  nextQuestion : NextField
deriving DecidableEq, Repr

/-- A quiz question (`DATA.questions` entry). -/
structure Question where
  id : Int
  copy : String
  answers : List Answer
deriving DecidableEq, Repr

/-- The loaded dataset (`DATA`): ordered item catalog and question list. -/
structure Dataset where
  shoes : List Shoe
  questions : List Question
deriving DecidableEq, Repr

/-- The id-to-question index (`questionsById`), a JS `Map`. -/
abbrev QMap := List (Int × Question)

/-- The accumulated scores object (`state.ratings`). -/
abbrev Ratings := List (String × Int)

/-- The four screens toggled by `showOnly`. -/
inductive Screen where
  | start
  | quiz
  | loading
  | results
deriving DecidableEq, Repr

/-- The mutable application state (`state`). -/
structure Session where
  screen : Screen
  currentQuestionId : Int
  ratings : Ratings
deriving DecidableEq, Repr

/-- Translation of `buildQuestionsMap`: fold the question list into a `Map`
keyed by question id (`map.set(q.id, q)` for each question in order). -/
def buildQuestionsMap (questions : List Question) : QMap :=
  questions.foldl (fun m q => jsSet m q.id q) []

/-- Translation of `getQuestion`: `questionsById.get(id) || null` (questions
are objects, hence truthy, so the `|| null` only converts `undefined`). -/
def getQuestion (m : QMap) (i : Int) : Option Question :=
  jsGet m i

/-- Translation of `createInitialRatings`: `ratings[s.id] = 0` for each shoe
in catalog order, starting from an empty object. -/
def createInitialRatings (shoes : List Shoe) : Ratings :=
  shoes.foldl (fun r s => jsSet r s.id (0 : Int)) []

/-- Translation of `initialState`: fresh session at the start screen with
`currentQuestionId = 0` and zero-initialized ratings. -/
def initialState (d : Dataset) : Session :=
  { screen := .start, currentQuestionId := 0,
    ratings := createInitialRatings d.shoes }

/-- Translation of `applyRatingIncrease`: for each `(shoeId, inc)` entry of
the delta object, `ratings[shoeId] = (ratings[shoeId] ?? 0) + inc`; a missing
(`none`) delta object is a no-op (`if (!ratingIncrease) return`). -/
def applyRatingIncrease (ratings : Ratings)
    (ratingIncrease : Option (List (String × Int))) : Ratings :=
  match ratingIncrease with
  | none => ratings
  | some deltas =>
      deltas.foldl (fun r p => jsSet r p.1 ((jsGet r p.1).getD 0 + p.2)) ratings

/-- Translation of the `orderIndex` map built inside `rankedShoes`:
`new Map(DATA.shoes.map((s, i) => [s.id, i]))`. -/
def orderIndex (shoes : List Shoe) : List (String × Nat) :=
  ((shoes.enum.map fun p => (p.2.id, p.1)).foldl (fun m p => jsSet m p.1 p.2) [])

/-- The position used by the tie-break comparator:
`orderIndex.get(id) ?? 0`. -/
def origIdx (shoes : List Shoe) (i : String) : Nat :=
  (jsGet (orderIndex shoes) i).getD 0

/-- A ranked record produced by `rankedShoes`: the spread copy
`{ ...s, rating }` of a catalog item decorated with its score. -/
structure RankedShoe where
  id : String
  name : String
  rating : Int
deriving DecidableEq, Repr

/-- The decoration step of `rankedShoes`:
`DATA.shoes.map((s) => ({ ...s, rating: state.ratings[s.id] ?? 0 }))`. -/
def decorate (ratings : Ratings) (s : Shoe) : RankedShoe :=
  { id := s.id, name := s.name, rating := (jsGet ratings s.id).getD 0 }

/-- Non-strict order corresponding to the sort comparator of `rankedShoes`
(`a` may be placed at or before `b` exactly when the comparator value
`c(a, b)` is at most `0`): descending rating, ties broken by ascending
original catalog position of the id. -/
def shoeLE (shoes : List Shoe) (a b : RankedShoe) : Prop :=
  b.rating < a.rating ∨
    (b.rating = a.rating ∧ origIdx shoes a.id ≤ origIdx shoes b.id)

instance (shoes : List Shoe) : DecidableRel (shoeLE shoes) := fun _ _ => by
  unfold shoeLE
  infer_instance

instance (shoes : List Shoe) : IsTotal RankedShoe (shoeLE shoes) where
  total := by
    intro a b
    unfold shoeLE
    omega

instance (shoes : List Shoe) : IsTrans RankedShoe (shoeLE shoes) where
  trans := by
    intro a b c hab hbc
    unfold shoeLE at *
    omega

/-- Translation of `rankedShoes`: decorate every catalog item with its score
(missing score entries default to `0`) and sort the decorated copies with the
comparator, a stable sort as required of `Array.prototype.sort`. -/
def rankedShoes (shoes : List Shoe) (ratings : Ratings) : List RankedShoe :=
  List.insertionSort (shoeLE shoes) (shoes.map (decorate ratings))

/-- Strict precedence in the ranked output as the specification states it:
strictly higher score, or equal score and strictly smaller original
position. -/
def shoePrec (shoes : List Shoe) (a b : RankedShoe) : Prop :=
  b.rating < a.rating ∨
    (b.rating = a.rating ∧ origIdx shoes a.id < origIdx shoes b.id)

/-- Translation of the results partition in `renderResultsScreen`:
`recommended = ranked[0] ?? null` and `similar = ranked.slice(1, 3)`. -/
def selectResults (ranked : List RankedShoe) :
    Option RankedShoe × List RankedShoe :=
  (ranked.head?, (ranked.drop 1).take 2)

/-- Outcome of the scoring-engine part of `handleAnswerClick`: which of the
early-return error paths was taken, or the terminal/continue result of the
`nextQuestion` branch. -/
inductive Outcome where
  | questionNotFound
  | answerNotFound
  | finished
  | cont (n : Int)
deriving DecidableEq, Repr

/-- Scoring-engine portion of `handleAnswerClick` (`submitAnswer` in the
specification): resolve the question via the index, resolve the answer by
index, apply the score deltas, and classify the `nextQuestion` field
(`"" | null | undefined` are the terminal markers).  Returns the updated
session together with the outcome; the error paths return the session
unchanged. -/
def submitAnswer (qmap : QMap) (s : Session) (qid : Int) (aIndex : Nat) :
    Session × Outcome :=
  match getQuestion qmap qid with
  | none => (s, .questionNotFound)
  | some q =>
    match q.answers[aIndex]? with
    | none => (s, .answerNotFound)
    | some ans =>
      let s1 := { s with ratings := applyRatingIncrease s.ratings ans.ratingIncrease }
      match ans.nextQuestion with
      | .qid n => (s1, .cont n)
      | _ => (s1, .finished)

/-- Defunctionalized update closures passed to `transitionTo` /
`fadeQuizContentAndUpdate` in `src/app.js`: the start/restart closure, the
go-home closure, and the render-next-question closure of the continue
path. -/
inductive PendingUpdate where
  | restart
  | home
  | renderQ (n : Int)
deriving DecidableEq, Repr

/-- Phase of the animated two-phase transition: idle, waiting for the
fade-out `transitionend` (with the pending update), or waiting for the
fade-in `transitionend`. -/
inductive Phase where
  | idle
  | fadingOut (u : PendingUpdate)
  | fadingIn
deriving DecidableEq, Repr

/-- Whole-application state: the session, the `isTransitioning` guard flag,
the armed transition callback phase, and whether the 900 ms results timeout
is pending. -/
structure UIState where
  session : Session
  isTransitioning : Bool
  phase : Phase
  pendingTimeout : Bool
deriving DecidableEq, Repr

/-- State effect of `showOnly`: record the newly visible screen. -/
def showOnlyS (s : Session) (scr : Screen) : Session :=
  { s with screen := scr }

/-- State effect of `renderQuestionScreen`: when the question resolves, set
`state.currentQuestionId` to it; when it does not, only the "Question not
found." placeholder is rendered and the session is untouched. -/
def renderQuestionScreenState (qmap : QMap) (s : Session) (qid : Int) :
    Session :=
  match getQuestion qmap qid with
  | none => s
  | some _ => { s with currentQuestionId := qid }

/-- Session effect of running a pending update closure (the `updateFn` body
executed while the stage or quiz content is hidden). -/
def applyUpdate (qmap : QMap) (d : Dataset) (u : PendingUpdate) (s : Session) :
    Session :=
  match u with
  | .restart => renderQuestionScreenState qmap (showOnlyS (initialState d) .quiz) 0
  | .home => showOnlyS (initialState d) .start
  | .renderQ n => renderQuestionScreenState qmap s n

/-- Translation of `transitionTo`: refuse to start while a transition is in
flight, otherwise set the guard and arm the fade-out callback with the
update closure. -/
def transitionTo (st : UIState) (u : PendingUpdate) : UIState :=
  if st.isTransitioning then st
  else { st with isTransitioning := true, phase := .fadingOut u }

/-- The fade-out `transitionend` event: run the pending update while hidden
and arm the fade-in callback.  No effect when no fade-out is armed. -/
def fadeOutEnd (qmap : QMap) (d : Dataset) (st : UIState) : UIState :=
  match st.phase with
  | .fadingOut u =>
      { st with session := applyUpdate qmap d u st.session, phase := .fadingIn }
  | _ => st

/-- The fade-in `transitionend` event: the transition is complete, clear the
guard.  No effect when no fade-in is armed. -/
def fadeInEnd (st : UIState) : UIState :=
  match st.phase with
  | .fadingIn => { st with isTransitioning := false, phase := .idle }
  | _ => st

/-- Translation of `fadeQuizContentAndUpdate`: off the quiz screen it falls
back to `transitionTo`; otherwise it refuses while transitioning, else sets
the guard and arms the quiz-content fade-out with the update closure. -/
def fadeQuizContentAndUpdate (st : UIState) (u : PendingUpdate) : UIState :=
  if st.session.screen ≠ .quiz then transitionTo st u
  else if st.isTransitioning then st
  else { st with isTransitioning := true, phase := .fadingOut u }

/-- Translation of `handleAnswerClick` (first variant of `app.js`): resolve
question and answer (silent early return on failure), apply the score
deltas, then either run the terminal path (guard check, set guard, switch to
the loading screen instantly, schedule the 900 ms results timeout) or the
continue path (fade the quiz content and render the next question). -/
def handleAnswerClick (qmap : QMap) (st : UIState) (qid : Int) (aIndex : Nat) :
    UIState :=
  match getQuestion qmap qid with
  | none => st
  | some q =>
    match q.answers[aIndex]? with
    | none => st
    | some ans =>
      let st1 := { st with session :=
        { st.session with
          ratings := applyRatingIncrease st.session.ratings ans.ratingIncrease } }
      match ans.nextQuestion with
      | .qid n => fadeQuizContentAndUpdate st1 (.renderQ n)
      | _ =>
        if st1.isTransitioning then st1
        else
          { st1 with isTransitioning := true,
                     session := showOnlyS st1.session .loading,
                     pendingTimeout := true }

/-- Firing of the 900 ms timeout of the terminal path: instant switch to the
results screen (rendering reads but does not change the session) and release
of the guard. -/
def timeoutFire (st : UIState) : UIState :=
  if st.pendingTimeout then
    { st with session := showOnlyS st.session .results,
              pendingTimeout := false, isTransitioning := false }
  else st

/-- Translation of the delegated `stageEl` click listener for answer
buttons: events arriving while `isTransitioning` is set are dropped before
reaching `handleAnswerClick`. -/
def stageClick (qmap : QMap) (st : UIState) (qid : Int) (aIndex : Nat) :
    UIState :=
  if st.isTransitioning then st
  else handleAnswerClick qmap st qid aIndex

/-! Helper lemmas about the association-list model of JS objects and maps. -/

theorem jsGet_jsSet_self {α β : Type} [DecidableEq α]
    (m : List (α × β)) (k : α) (v : β) : jsGet (jsSet m k v) k = some v := by
  induction m with
  | nil => simp [jsSet, jsGet]
  | cons p rest ih =>
      by_cases h : p.1 = k
      · simp [jsSet, h, jsGet]
      · simp [jsSet, h, jsGet, ih]

theorem jsGet_jsSet_ne {α β : Type} [DecidableEq α]
    (m : List (α × β)) (k i : α) (v : β) (h : i ≠ k) :
    jsGet (jsSet m k v) i = jsGet m i := by
  have h2 : k ≠ i := Ne.symm h
  induction m with
  | nil => simp [jsSet, jsGet, h2]
  | cons p rest ih =>
      by_cases hp : p.1 = k
      · have hpi : p.1 ≠ i := by rw [hp]; exact h2
        simp [jsSet, hp, jsGet, h2, hpi]
      · simp [jsSet, hp, jsGet, ih]

theorem jsSet_of_not_mem {α β : Type} [DecidableEq α]
    (m : List (α × β)) (k : α) (v : β) (h : k ∉ m.map Prod.fst) :
    jsSet m k v = m ++ [(k, v)] := by
  induction m with
  | nil => simp [jsSet]
  | cons p rest ih =>
      simp only [List.map_cons, List.mem_cons, not_or] at h
      have hne : ¬p.1 = k := fun hh => h.1 hh.symm
      simp [jsSet, hne, ih h.2]

theorem jsGet_of_mem_nodup {α β : Type} [DecidableEq α]
    (m : List (α × β)) (k : α) (v : β) (hmem : (k, v) ∈ m)
    (hnd : (m.map Prod.fst).Nodup) : jsGet m k = some v := by
  induction m with
  | nil => simp at hmem
  | cons p rest ih =>
      simp only [List.map_cons, List.nodup_cons] at hnd
      rcases List.mem_cons.mp hmem with heq | hmem2
      · subst heq
        simp [jsGet]
      · have hne : p.1 ≠ k := by
          intro hh
          exact hnd.1 (hh ▸ (List.mem_map.mpr ⟨(k, v), hmem2, rfl⟩))
        simp [jsGet, hne, ih hmem2 hnd.2]

theorem foldl_jsSet_eq {α β γ : Type} [DecidableEq α]
    (f : γ → α) (g : γ → β) :
    ∀ (l : List γ) (acc : List (α × β)),
      (l.map f).Nodup → (∀ x ∈ l, f x ∉ acc.map Prod.fst) →
      l.foldl (fun r x => jsSet r (f x) (g x)) acc
        = acc ++ l.map (fun x => (f x, g x))
  | [], acc, _, _ => by simp
  | x :: rest, acc, hnd, hdisj => by
      simp only [List.map_cons, List.nodup_cons] at hnd
      rw [List.foldl_cons, jsSet_of_not_mem _ _ _ (hdisj x (List.mem_cons_self x rest)),
        foldl_jsSet_eq f g rest (acc ++ [(f x, g x)]) hnd.2]
      · simp
      · intro y hy
        simp only [List.map_append, List.mem_append, not_or]
        refine ⟨hdisj y (List.mem_cons_of_mem x hy), ?_⟩
        simp only [List.map_cons, List.map_nil, List.mem_singleton]
        intro hh
        exact hnd.1 (hh ▸ List.mem_map.mpr ⟨y, hy, rfl⟩)

theorem createInitialRatings_eq (shoes : List Shoe)
    (h : (shoes.map Shoe.id).Nodup) :
    createInitialRatings shoes = shoes.map (fun s => (s.id, (0 : Int))) := by
  have := foldl_jsSet_eq (γ := Shoe) Shoe.id (fun _ => (0 : Int)) shoes [] h
    (by simp)
  simpa [createInitialRatings] using this

theorem orderIndex_eq (shoes : List Shoe) (h : (shoes.map Shoe.id).Nodup) :
    orderIndex shoes = shoes.enum.map fun p => (p.2.id, p.1) := by
  have hkeys : ((shoes.enum.map fun p => (p.2.id, p.1)).map Prod.fst).Nodup := by
    have h1 : ((shoes.enum.map fun p : Nat × Shoe => (p.2.id, p.1)).map Prod.fst)
        = shoes.map Shoe.id := by
      rw [List.map_map]
      have h2 : (Prod.fst ∘ fun p : Nat × Shoe => (p.2.id, p.1))
          = Shoe.id ∘ Prod.snd := rfl
      rw [h2, ← List.map_map, List.enum_map_snd]
    rw [h1]
    exact h
  have := foldl_jsSet_eq (γ := String × Nat) Prod.fst Prod.snd
    (shoes.enum.map fun p => (p.2.id, p.1)) [] (by simpa using hkeys) (by simp)
  simpa [orderIndex] using this

theorem origIdx_getElem (shoes : List Shoe) (h : (shoes.map Shoe.id).Nodup)
    (i : Nat) (hi : i < shoes.length) : origIdx shoes shoes[i].id = i := by
  have hkeys : ((shoes.enum.map fun p : Nat × Shoe => (p.2.id, p.1)).map Prod.fst)
      = shoes.map Shoe.id := by
    rw [List.map_map]
    have h2 : (Prod.fst ∘ fun p : Nat × Shoe => (p.2.id, p.1))
        = Shoe.id ∘ Prod.snd := rfl
    rw [h2, ← List.map_map, List.enum_map_snd]
  have hlen : i < (shoes.enum.map fun p : Nat × Shoe => (p.2.id, p.1)).length := by
    simpa [List.enum_length] using hi
  have hmem : (shoes[i].id, i) ∈ shoes.enum.map fun p : Nat × Shoe => (p.2.id, p.1) := by
    have hget : (shoes.enum.map fun p : Nat × Shoe => (p.2.id, p.1))[i] = (shoes[i].id, i) := by
      rw [List.getElem_map]
      have := List.getElem_enum shoes i (by simpa [List.enum_length] using hi)
      rw [this]
    exact hget ▸ List.getElem_mem hlen
  have := jsGet_of_mem_nodup _ _ _ hmem (by rw [hkeys]; exact h)
  rw [origIdx, orderIndex_eq shoes h, this]
  rfl

theorem foldl_applyDelta_not_mem (deltas : List (String × Int))
    (r : Ratings) (k : String) (h : k ∉ deltas.map Prod.fst) :
    jsGet (deltas.foldl (fun r p => jsSet r p.1 ((jsGet r p.1).getD 0 + p.2)) r) k
      = jsGet r k := by
  induction deltas generalizing r with
  | nil => rfl
  | cons p rest ih =>
      simp only [List.map_cons, List.mem_cons, not_or] at h
      rw [List.foldl_cons, ih _ h.2, jsGet_jsSet_ne _ _ _ _ h.1]

theorem applyRatingIncrease_mem (deltas : List (String × Int)) (r : Ratings)
    (k : String) (dv : Int) (hmem : (k, dv) ∈ deltas)
    (hnd : (deltas.map Prod.fst).Nodup) :
    jsGet (applyRatingIncrease r (some deltas)) k
      = some ((jsGet r k).getD 0 + dv) := by
  induction deltas generalizing r with
  | nil => simp at hmem
  | cons p rest ih =>
      simp only [List.map_cons, List.nodup_cons] at hnd
      rcases List.mem_cons.mp hmem with heq | hmem2
      · subst heq
        show jsGet (rest.foldl _ (jsSet r k ((jsGet r k).getD 0 + dv))) k = _
        rw [foldl_applyDelta_not_mem rest _ k hnd.1, jsGet_jsSet_self]
      · have hne : k ≠ p.1 := by
          intro hh
          exact hnd.1 (hh ▸ List.mem_map.mpr ⟨(k, dv), hmem2, rfl⟩)
        have step := ih (jsSet r p.1 ((jsGet r p.1).getD 0 + p.2)) hmem2 hnd.2
        rw [jsGet_jsSet_ne _ _ _ _ hne] at step
        exact step

theorem applyRatingIncrease_not_mem (deltas : List (String × Int)) (r : Ratings)
    (k : String) (h : k ∉ deltas.map Prod.fst) :
    jsGet (applyRatingIncrease r (some deltas)) k = jsGet r k :=
  foldl_applyDelta_not_mem deltas r k h

theorem getQuestion_buildQuestionsMap (qs : List Question) (i : Int) :
    getQuestion (buildQuestionsMap qs) i
      = qs.reverse.find? (fun q => q.id == i) := by
  induction qs using List.reverseRecOn with
  | nil => rfl
  | append_singleton qs q ih =>
      rw [buildQuestionsMap, List.foldl_append]
      show getQuestion (jsSet (buildQuestionsMap qs) q.id q) i = _
      rw [List.reverse_append, List.reverse_singleton, List.singleton_append,
        List.find?_cons]
      by_cases hq : q.id = i
      · subst hq
        simp only [beq_self_eq_true]
        exact jsGet_jsSet_self _ _ _
      · have hb : (q.id == i) = false := beq_false_of_ne hq
        rw [hb]
        show jsGet (jsSet (buildQuestionsMap qs) q.id q) i = _
        rw [jsGet_jsSet_ne _ _ _ _ (Ne.symm hq)]
        exact ih

/-! Lemmas about the ranking order. -/

theorem shoePrec_asymm (shoes : List Shoe) (a b : RankedShoe)
    (hab : shoePrec shoes a b) (hba : shoePrec shoes b a) : False := by
  unfold shoePrec at *
  omega

theorem rankedShoes_perm (shoes : List Shoe) (ratings : Ratings) :
    (rankedShoes shoes ratings).Perm (shoes.map (decorate ratings)) :=
  List.perm_insertionSort _ _

theorem map_origIdx_decorate (shoes : List Shoe) (ratings : Ratings)
    (h : (shoes.map Shoe.id).Nodup) :
    (shoes.map (decorate ratings)).map (fun x => origIdx shoes x.id)
      = List.range shoes.length := by
  apply List.ext_getElem
  · simp
  · intro n h1 h2
    simp only [List.getElem_map, List.getElem_range]
    exact origIdx_getElem shoes h n (by simpa using h1)

theorem pairwise_shoePrec (shoes : List Shoe) (ratings : Ratings)
    (h : (shoes.map Shoe.id).Nodup) :
    List.Pairwise (shoePrec shoes) (rankedShoes shoes ratings) := by
  have hsorted : List.Pairwise (shoeLE shoes) (rankedShoes shoes ratings) :=
    List.sorted_insertionSort (shoeLE shoes) (shoes.map (decorate ratings))
  have hperm := (rankedShoes_perm shoes ratings).map (fun x => origIdx shoes x.id)
  rw [map_origIdx_decorate shoes ratings h] at hperm
  have hnd : ((rankedShoes shoes ratings).map (fun x => origIdx shoes x.id)).Nodup :=
    hperm.symm.nodup (List.nodup_range _)
  have hne : List.Pairwise
      (fun a b : RankedShoe => origIdx shoes a.id ≠ origIdx shoes b.id)
      (rankedShoes shoes ratings) := List.pairwise_map.mp hnd
  refine (hsorted.and hne).imp ?_
  intro a b hb
  rcases hb with ⟨hle, hne2⟩
  unfold shoeLE at hle
  unfold shoePrec
  omega

/-! Concrete fixtures used by the examples and witnesses. -/

/-- Items a, b, c of the ranking-determinism example, in that catalog order. -/
def shoesABC : List Shoe := [⟨"a", "a"⟩, ⟨"b", "b"⟩, ⟨"c", "c"⟩]

/-- Scores a:5, b:5, c:9 of the ranking-determinism example. -/
def ratingsABC : Ratings := [("a", 5), ("b", 5), ("c", 9)]

/-- Zero-initialized scores for two items A and B. -/
def ratingsAB0 : Ratings := [("A", 0), ("B", 0)]

/-- The score-delta object `{A: 3, B: 1}` of the accumulation example. -/
def deltasAB : List (String × Int) := [("A", 3), ("B", 1)]

/-- A terminal answer (`nextQuestion` explicitly null). -/
def ansEnd : Answer := { copy := "end", ratingIncrease := some [("A", 2)], nextQuestion := .nullv }

/-- A continuing answer pointing at question 1. -/
def ansCont : Answer := { copy := "go", ratingIncrease := some [("A", 1)], nextQuestion := .qid 1 }

/-- Question 0 of the concrete fixture, with one continuing answer. -/
def q0fix : Question := { id := 0, copy := "q0", answers := [ansCont] }

/-- Question 1 of the concrete fixture, with one terminal answer. -/
def q1fix : Question := { id := 1, copy := "q1", answers := [ansEnd] }

/-- Question index over the two fixture questions. -/
def qmapFix : QMap := buildQuestionsMap [q0fix, q1fix]

/-- A quiz-screen session over one item A. -/
def sessFix : Session := { screen := .quiz, currentQuestionId := 0, ratings := [("A", 0)] }

/-- Idle whole-application state over `sessFix`. -/
def stFix : UIState :=
  { session := sessFix, isTransitioning := false, phase := .idle, pendingTimeout := false }

/-- The same state with the Transition Guard set. -/
def stFixT : UIState := { stFix with isTransitioning := true }

/-- A single-item dataset for the restart example. -/
def dFix : Dataset := { shoes := [⟨"A", "A"⟩], questions := [q0fix, q1fix] }

/-- A prior session with accumulated values, to restart from. -/
def priorFix : Session := { screen := .results, currentQuestionId := 7, ratings := [("A", 9)] }

/-! Claim theorems. -/

/-- C1: for every dataset (with its unique item ids) and session,
`rankedShoes` returns a sequence containing every item of the catalog
(a permutation of the score-decorated catalog) in a total deterministic
order — position `i` strictly precedes position `j` iff the item at `i` has
a strictly greater score, or an equal score and a strictly smaller original
catalog position; in particular for items `[a:5, b:5, c:9]` in that original
order the result is `[c, a, b]`. -/
theorem rank_total_deterministic_order (shoes : List Shoe) (ratings : Ratings)
    (h : (shoes.map Shoe.id).Nodup) :
    (rankedShoes shoes ratings).Perm (shoes.map (decorate ratings))
    ∧ (∀ (i j : Nat) (hi : i < (rankedShoes shoes ratings).length)
        (hj : j < (rankedShoes shoes ratings).length),
        i < j ↔ shoePrec shoes (rankedShoes shoes ratings)[i]
          (rankedShoes shoes ratings)[j])
    ∧ rankedShoes shoesABC ratingsABC
        = [⟨"c", "c", 9⟩, ⟨"a", "a", 5⟩, ⟨"b", "b", 5⟩] := by
  refine ⟨rankedShoes_perm shoes ratings, ?_, by decide⟩
  intro i j hi hj
  constructor
  · intro hij
    exact List.pairwise_iff_getElem.mp (pairwise_shoePrec shoes ratings h) i j hi hj hij
  · intro hp
    by_contra hnot
    rcases Nat.lt_or_ge j i with hji | hge
    · exact shoePrec_asymm shoes _ _ hp
        (List.pairwise_iff_getElem.mp (pairwise_shoePrec shoes ratings h) j i hj hi hji)
    · have hij : i = j := Nat.le_antisymm hge (Nat.not_lt.mp hnot)
      subst hij
      exact shoePrec_asymm shoes _ _ hp hp

/-- Witness for C1 at the concrete a/b/c example. -/
theorem rank_total_deterministic_order_witness :
    (shoesABC.map Shoe.id).Nodup
    ∧ ((rankedShoes shoesABC ratingsABC).Perm (shoesABC.map (decorate ratingsABC))
      ∧ (∀ (i j : Nat) (hi : i < (rankedShoes shoesABC ratingsABC).length)
          (hj : j < (rankedShoes shoesABC ratingsABC).length),
          i < j ↔ shoePrec shoesABC (rankedShoes shoesABC ratingsABC)[i]
            (rankedShoes shoesABC ratingsABC)[j])
      ∧ rankedShoes shoesABC ratingsABC
          = [⟨"c", "c", 9⟩, ⟨"a", "a", 5⟩, ⟨"b", "b", 5⟩]) :=
  ⟨by decide, rank_total_deterministic_order shoesABC ratingsABC (by decide)⟩

/-- C2: for every scores object and every score-delta object of an answer
(its keys unique as in any JS object), `applyRatingIncrease` increments the
entry of each `(itemId, delta)` pair by `delta`, creating a missing
destination entry at `0` before adding (the result entry is always present
and equals the prior value, default `0`, plus the delta, so negative deltas
subtract and nothing is clamped); entries outside the delta keys are
untouched; applying `{A: 3, B: 1}` twice in sequence to zero scores yields
`A = 6` and `B = 2` (accumulation, not overwrite). -/
theorem applyRatingIncrease_accumulates (deltas : List (String × Int))
    (r : Ratings) (hnd : (deltas.map Prod.fst).Nodup) :
    (∀ (k : String) (dv : Int), (k, dv) ∈ deltas →
        jsGet (applyRatingIncrease r (some deltas)) k
          = some ((jsGet r k).getD 0 + dv))
    ∧ (∀ k : String, k ∉ deltas.map Prod.fst →
        jsGet (applyRatingIncrease r (some deltas)) k = jsGet r k)
    ∧ jsGet (applyRatingIncrease (applyRatingIncrease ratingsAB0 (some deltasAB))
        (some deltasAB)) "A" = some 6
    ∧ jsGet (applyRatingIncrease (applyRatingIncrease ratingsAB0 (some deltasAB))
        (some deltasAB)) "B" = some 2 := by
  refine ⟨?_, ?_, by decide, by decide⟩
  · intro k dv hmem
    exact applyRatingIncrease_mem deltas r k dv hmem hnd
  · intro k hk
    exact applyRatingIncrease_not_mem deltas r k hk

/-- Witness for C2 at the `{A: 3, B: 1}` example. -/
theorem applyRatingIncrease_accumulates_witness :
    (deltasAB.map Prod.fst).Nodup
    ∧ ((∀ (k : String) (dv : Int), (k, dv) ∈ deltasAB →
        jsGet (applyRatingIncrease ratingsAB0 (some deltasAB)) k
          = some ((jsGet ratingsAB0 k).getD 0 + dv))
      ∧ (∀ k : String, k ∉ deltasAB.map Prod.fst →
          jsGet (applyRatingIncrease ratingsAB0 (some deltasAB)) k
            = jsGet ratingsAB0 k)
      ∧ jsGet (applyRatingIncrease (applyRatingIncrease ratingsAB0 (some deltasAB))
          (some deltasAB)) "A" = some 6
      ∧ jsGet (applyRatingIncrease (applyRatingIncrease ratingsAB0 (some deltasAB))
          (some deltasAB)) "B" = some 2) :=
  ⟨by decide, applyRatingIncrease_accumulates deltasAB ratingsAB0 (by decide)⟩

/-- C9: `buildQuestionsMap` maps each question id to the question bearing it,
with last-write-wins on duplicated ids — looking any id up in the built index
returns exactly the last question in list order whose id matches (and for any
question in the list, the lookup of its id yields some question of the list
with that id). -/
theorem buildIndex_last_write_wins (qs : List Question) (i : Int) :
    getQuestion (buildQuestionsMap qs) i
      = qs.reverse.find? (fun q => q.id == i)
    ∧ (∀ q ∈ qs, q.id = i →
        ∃ q2, getQuestion (buildQuestionsMap qs) i = some q2
          ∧ q2.id = i ∧ q2 ∈ qs) := by
  refine ⟨getQuestion_buildQuestionsMap qs i, ?_⟩
  intro q hq hid
  rcases hfind : qs.reverse.find? (fun q => q.id == i) with _ | q2
  · exfalso
    have := List.find?_eq_none.mp hfind q (List.mem_reverse.mpr hq)
    simp [hid] at this
  · refine ⟨q2, by rw [getQuestion_buildQuestionsMap qs i, hfind], ?_, ?_⟩
    · have := List.find?_some hfind
      exact beq_iff_eq.mp this
    · exact List.mem_reverse.mp (List.mem_of_find?_eq_some hfind)

/-- Witness for C9: duplicated id 0 resolves to the later question. -/
theorem buildIndex_last_write_wins_witness :
    getQuestion (buildQuestionsMap [q0fix, { q0fix with copy := "dup" }]) 0
      = [q0fix, { q0fix with copy := "dup" }].reverse.find? (fun q => q.id == 0)
    ∧ ∃ q2, getQuestion (buildQuestionsMap [q0fix, { q0fix with copy := "dup" }]) 0
        = some q2 ∧ q2.id = 0 ∧ q2 ∈ [q0fix, { q0fix with copy := "dup" }] :=
  ⟨(buildIndex_last_write_wins [q0fix, { q0fix with copy := "dup" }] 0).1,
    (buildIndex_last_write_wins [q0fix, { q0fix with copy := "dup" }] 0).2
      q0fix (by simp) rfl⟩

/-- C3: for every valid question and answer index, the scoring engine yields
`finished` exactly when the chosen answer's `nextQuestion` is one of the three
equivalent terminal markers (absent key, explicit null, empty string), and
otherwise yields `cont` carrying the resolved next question id. -/
theorem submitAnswer_finished_iff (qmap : QMap) (s : Session) (qid : Int)
    (aIndex : Nat) (q : Question) (ans : Answer)
    (hq : getQuestion qmap qid = some q)
    (ha : q.answers[aIndex]? = some ans) :
    ((submitAnswer qmap s qid aIndex).2 = .finished ↔
      (ans.nextQuestion = .undef ∨ ans.nextQuestion = .nullv
        ∨ ans.nextQuestion = .emptyStr))
    ∧ ∀ n : Int, ans.nextQuestion = .qid n →
        (submitAnswer qmap s qid aIndex).2 = .cont n := by
  rcases hx : ans.nextQuestion with _ | _ | _ | n <;>
    simp [submitAnswer, hq, ha, hx]

/-- Witness for C3 at a terminal (explicit null) answer. -/
theorem submitAnswer_finished_iff_witness :
    getQuestion qmapFix 1 = some q1fix
    ∧ q1fix.answers[0]? = some ansEnd
    ∧ (((submitAnswer qmapFix sessFix 1 0).2 = .finished ↔
        (ansEnd.nextQuestion = .undef ∨ ansEnd.nextQuestion = .nullv
          ∨ ansEnd.nextQuestion = .emptyStr))
      ∧ ∀ n : Int, ansEnd.nextQuestion = .qid n →
          (submitAnswer qmapFix sessFix 1 0).2 = .cont n) :=
  ⟨rfl, rfl, submitAnswer_finished_iff qmapFix sessFix 1 0 q1fix ansEnd rfl rfl⟩

/-- C4: when the question id does not resolve via the index the engine fails
with the question-not-found outcome, and when the answer index is out of
bounds it fails with the answer-not-found outcome; in both error cases the
engine (and the full click handler around it) returns without mutating the
session — scores, current question id and active screen all unchanged. -/
theorem submitAnswer_errors (qmap : QMap) (s : Session) (st : UIState)
    (qid : Int) (aIndex : Nat) :
    (getQuestion qmap qid = none →
        submitAnswer qmap s qid aIndex = (s, .questionNotFound)
        ∧ handleAnswerClick qmap st qid aIndex = st)
    ∧ ∀ q, getQuestion qmap qid = some q → q.answers[aIndex]? = none →
        submitAnswer qmap s qid aIndex = (s, .answerNotFound)
        ∧ handleAnswerClick qmap st qid aIndex = st := by
  constructor
  · intro h
    exact ⟨by simp [submitAnswer, h], by simp [handleAnswerClick, h]⟩
  · intro q hq ha
    exact ⟨by simp [submitAnswer, hq, ha], by simp [handleAnswerClick, hq, ha]⟩

/-- Witness for C4: an unresolvable question id and an out-of-bounds answer
index both leave the state untouched. -/
theorem submitAnswer_errors_witness :
    getQuestion qmapFix 5 = none
    ∧ (submitAnswer qmapFix sessFix 5 0 = (sessFix, .questionNotFound)
      ∧ handleAnswerClick qmapFix stFix 5 0 = stFix)
    ∧ getQuestion qmapFix 0 = some q0fix
    ∧ q0fix.answers[7]? = none
    ∧ (submitAnswer qmapFix sessFix 0 7 = (sessFix, .answerNotFound)
      ∧ handleAnswerClick qmapFix stFix 0 7 = stFix) :=
  ⟨rfl, (submitAnswer_errors qmapFix sessFix stFix 5 0).1 rfl, rfl, rfl,
    (submitAnswer_errors qmapFix sessFix stFix 0 7).2 q0fix rfl rfl⟩

/-- C5: for every loaded dataset (with its unique item ids), a fresh session
starts at the start screen with current question id 0 and one
zero-initialized score entry per catalog item in catalog order; the restart
update fully replaces the session, so after it the scores are again exactly
the zero-initialized entries and the current question id is 0 regardless of
the prior session. -/
theorem newSession_zero_init (d : Dataset) (qmap : QMap) (prior : Session)
    (h : (d.shoes.map Shoe.id).Nodup) :
    (initialState d).screen = .start
    ∧ (initialState d).currentQuestionId = 0
    ∧ (initialState d).ratings = d.shoes.map (fun s => (s.id, (0 : Int)))
    ∧ (applyUpdate qmap d .restart prior).ratings
        = d.shoes.map (fun s => (s.id, (0 : Int)))
    ∧ (applyUpdate qmap d .restart prior).currentQuestionId = 0 := by
  refine ⟨rfl, rfl, createInitialRatings_eq d.shoes h, ?_, ?_⟩
  · unfold applyUpdate renderQuestionScreenState
    rcases hgq : getQuestion qmap 0 with _ | q <;>
      simp [showOnlyS, initialState, createInitialRatings_eq d.shoes h]
  · unfold applyUpdate renderQuestionScreenState
    rcases hgq : getQuestion qmap 0 with _ | q <;>
      simp [showOnlyS, initialState]

/-- Witness for C5 at the one-item dataset, restarting from a session with
accumulated values. -/
theorem newSession_zero_init_witness :
    (dFix.shoes.map Shoe.id).Nodup
    ∧ ((initialState dFix).screen = .start
      ∧ (initialState dFix).currentQuestionId = 0
      ∧ (initialState dFix).ratings = dFix.shoes.map (fun s => (s.id, (0 : Int)))
      ∧ (applyUpdate qmapFix dFix .restart priorFix).ratings
          = dFix.shoes.map (fun s => (s.id, (0 : Int)))
      ∧ (applyUpdate qmapFix dFix .restart priorFix).currentQuestionId = 0) :=
  ⟨by decide, newSession_zero_init dFix qmapFix priorFix (by decide)⟩

/-- C6: `selectResults` returns as recommended the first ranked element when
one exists (`none` on an empty ranking) and as similar exactly the elements
at 0-indexed positions 1 and 2 truncated to those that exist, with no
re-sorting or additional tie logic; hence lengths 0, 1 and 2 give similar
lists of length 0, 0 and 1 respectively. -/
theorem selectResults_partition (l : List RankedShoe) :
    (selectResults l).1 = l[0]?
    ∧ (∀ i : Nat, (selectResults l).2[i]? = if i < 2 then l[i + 1]? else none)
    ∧ (selectResults l).2.length = min 2 (l.length - 1) := by
  refine ⟨?_, ?_, ?_⟩
  · show l.head? = _
    cases l <;> simp
  · intro i
    show ((l.drop 1).take 2)[i]? = _
    rw [List.getElem?_take, List.getElem?_drop, Nat.add_comm]
  · show ((l.drop 1).take 2).length = _
    rw [List.length_take, List.length_drop]

theorem submitAnswer_frame (qmap : QMap) (s : Session) (qid : Int)
    (aIndex : Nat) :
    ((submitAnswer qmap s qid aIndex).1).screen = s.screen
    ∧ ((submitAnswer qmap s qid aIndex).1).currentQuestionId
        = s.currentQuestionId := by
  cases hq : getQuestion qmap qid with
  | none => simp [submitAnswer, hq]
  | some q =>
    cases ha : q.answers[aIndex]? with
    | none => simp [submitAnswer, hq, ha]
    | some ans => cases hx : ans.nextQuestion <;> simp [submitAnswer, hq, ha, hx]

/-- C7: the scoring engine's only session effect is on the scores — for every
call it preserves the active screen and the current question id; on the
continue path the full click handler equals the engine step followed by an
armed quiz-content transition, the current question id is still unchanged at
that point, and it advances to the resolved next id only in the later
fade-out step (the caller's render), a separate observable step after the
score update. -/
theorem submitAnswer_effects_confined (qmap : QMap) (d : Dataset)
    (st : UIState) (qid n : Int) (aIndex : Nat) (q q2 : Question)
    (ans : Answer) (hT : st.isTransitioning = false)
    (hscr : st.session.screen = .quiz)
    (hq : getQuestion qmap qid = some q)
    (ha : q.answers[aIndex]? = some ans)
    (hn : ans.nextQuestion = .qid n)
    (hq2 : getQuestion qmap n = some q2) :
    (∀ (qm : QMap) (s : Session) (qi : Int) (ai : Nat),
      ((submitAnswer qm s qi ai).1).screen = s.screen
      ∧ ((submitAnswer qm s qi ai).1).currentQuestionId = s.currentQuestionId)
    ∧ (submitAnswer qmap st.session qid aIndex).2 = .cont n
    ∧ handleAnswerClick qmap st qid aIndex
        = { st with session := (submitAnswer qmap st.session qid aIndex).1,
                    isTransitioning := true, phase := .fadingOut (.renderQ n) }
    ∧ (handleAnswerClick qmap st qid aIndex).session.currentQuestionId
        = st.session.currentQuestionId
    ∧ (fadeOutEnd qmap d (handleAnswerClick qmap st qid aIndex)).session.currentQuestionId
        = n := by
  have h3 : handleAnswerClick qmap st qid aIndex
      = { st with session := (submitAnswer qmap st.session qid aIndex).1,
                  isTransitioning := true, phase := .fadingOut (.renderQ n) } := by
    simp [handleAnswerClick, hq, ha, hn, fadeQuizContentAndUpdate, hscr, hT,
      submitAnswer]
  refine ⟨fun qm s qi ai => submitAnswer_frame qm s qi ai,
    by simp [submitAnswer, hq, ha, hn], h3, ?_, ?_⟩
  · rw [h3]
    exact (submitAnswer_frame qmap st.session qid aIndex).2
  · rw [h3]
    simp [fadeOutEnd, applyUpdate, renderQuestionScreenState, hq2]

/-- Witness for C7 at the two-question fixture: the engine call leaves the
current question id at 0 and the later fade-out step advances it to 1. -/
theorem submitAnswer_effects_confined_witness :
    stFix.isTransitioning = false
    ∧ stFix.session.screen = .quiz
    ∧ getQuestion qmapFix 0 = some q0fix
    ∧ q0fix.answers[0]? = some ansCont
    ∧ ansCont.nextQuestion = .qid 1
    ∧ getQuestion qmapFix 1 = some q1fix
    ∧ (handleAnswerClick qmapFix stFix 0 0).session.currentQuestionId
        = stFix.session.currentQuestionId
    ∧ (fadeOutEnd qmapFix dFix (handleAnswerClick qmapFix stFix 0 0)).session.currentQuestionId
        = 1 :=
  ⟨rfl, rfl, rfl, rfl, rfl, rfl,
    (submitAnswer_effects_confined qmapFix dFix stFix 0 1 0 q0fix q1fix
      ansCont rfl rfl rfl rfl rfl rfl).2.2.2.1,
    (submitAnswer_effects_confined qmapFix dFix stFix 0 1 0 q0fix q1fix
      ansCont rfl rfl rfl rfl rfl rfl).2.2.2.2⟩

/-- C8: while the Transition Guard is set, an answer-selection click is
dropped whole (the state, hence session scores, current question id and
active screen, is returned unchanged and the scoring engine is never
reached), and no second transition can start (`transitionTo` and the
quiz-content fade return the state unchanged); the guard is set at
transition start, survives the fade-out step, and is cleared by the fade-in
completion. -/
theorem transitionGuard_blocks (qmap : QMap) (d : Dataset) (st : UIState)
    (qid : Int) (aIndex : Nat) (u : PendingUpdate) :
    (st.isTransitioning = true → stageClick qmap st qid aIndex = st)
    ∧ (st.isTransitioning = true → transitionTo st u = st)
    ∧ (st.isTransitioning = true → fadeQuizContentAndUpdate st u = st)
    ∧ (st.isTransitioning = false → (transitionTo st u).isTransitioning = true)
    ∧ (st.isTransitioning = true →
        (fadeOutEnd qmap d st).isTransitioning = true)
    ∧ (st.phase = .fadingIn → (fadeInEnd st).isTransitioning = false) := by
  refine ⟨?_, ?_, ?_, ?_, ?_, ?_⟩
  · intro h
    simp [stageClick, h]
  · intro h
    simp [transitionTo, h]
  · intro h
    by_cases hscr : st.session.screen ≠ .quiz <;>
      simp [fadeQuizContentAndUpdate, hscr, transitionTo, h]
  · intro h
    simp [transitionTo, h]
  · intro h
    cases hp : st.phase <;> simp [fadeOutEnd, hp, h]
  · intro h
    simp [fadeInEnd, h]

/-- Witness for C8: with the guard set, a click and a transition request are
both no-ops, and the fade-in completion clears the guard. -/
theorem transitionGuard_blocks_witness :
    stFixT.isTransitioning = true
    ∧ stageClick qmapFix stFixT 0 0 = stFixT
    ∧ transitionTo stFixT .home = stFixT
    ∧ fadeQuizContentAndUpdate stFixT (.renderQ 1) = stFixT
    ∧ ({ stFixT with phase := .fadingIn }.phase = Phase.fadingIn
      ∧ (fadeInEnd { stFixT with phase := .fadingIn }).isTransitioning = false) :=
  ⟨rfl,
    (transitionGuard_blocks qmapFix dFix stFixT 0 0 .home).1 rfl,
    (transitionGuard_blocks qmapFix dFix stFixT 0 0 .home).2.1 rfl,
    (transitionGuard_blocks qmapFix dFix stFixT 0 0 (.renderQ 1)).2.2.1 rfl,
    rfl,
    (transitionGuard_blocks qmapFix dFix { stFixT with phase := .fadingIn }
      0 0 .home).2.2.2.2.2 rfl⟩

/-- C10: ranking is read-only and built fresh — `rankedShoes` is a pure
function whose output is a permutation of the score-decorated copies of the
catalog items (fresh records pairing each item's data with its score, the
catalog itself being sorted only through those copies), an item whose id has
no score entry is ranked with score 0, and the results-rendering step leaves
the session's scores and current question id unchanged. -/
theorem rank_read_only (shoes : List Shoe) (ratings : Ratings) :
    (rankedShoes shoes ratings).Perm (shoes.map (decorate ratings))
    ∧ (∀ (i : Nat) (hi : i < shoes.length), jsGet ratings shoes[i].id = none →
        (⟨shoes[i].id, shoes[i].name, 0⟩ : RankedShoe) ∈ rankedShoes shoes ratings)
    ∧ (∀ st : UIState, (timeoutFire st).session.ratings = st.session.ratings
        ∧ (timeoutFire st).session.currentQuestionId
          = st.session.currentQuestionId) := by
  refine ⟨rankedShoes_perm shoes ratings, ?_, ?_⟩
  · intro i hi hnone
    have hdec : decorate ratings shoes[i] = ⟨shoes[i].id, shoes[i].name, 0⟩ := by
      simp [decorate, hnone]
    rw [(rankedShoes_perm shoes ratings).mem_iff, ← hdec]
    exact List.mem_map_of_mem (decorate ratings) (List.getElem_mem hi)
  · intro st
    by_cases h : st.pendingTimeout <;> simp [timeoutFire, h, showOnlyS]

/-- Witness for C10: with an empty scores object, item a is ranked with
score 0. -/
theorem rank_read_only_witness :
    jsGet ([] : Ratings) (shoesABC[0].id) = none
    ∧ (⟨shoesABC[0].id, shoesABC[0].name, 0⟩ : RankedShoe)
        ∈ rankedShoes shoesABC [] :=
  ⟨rfl, (rank_read_only shoesABC []).2.1 0 (by decide) rfl⟩

end TryOnQuiz
